import Mathlib

/-!
Verification of the playback controller in `src/player.js` (the `sampleplayer`
namespace of the CastReferencePlayer repository).

JavaScript strings are modelled as `List Char` (`JStr`).  Pure helpers
(`getExtension_`, `getType_`, the protocol selection in `loadVideo_`) are
translated directly; the stateful player is embedded as explicit state
passing over a `Player` record, with browser/DOM observations (current time,
duration, buffered ranges, underflow flag) passed in as oracle inputs and
external calls (broadcasts, forwarded error hooks) recorded in log fields.
Timers are modelled as pools of `(id, payload)` pairs with fresh-id counters,
so that `clearTimeout` of a remembered id and the single-shot discipline can
be stated and proved rather than assumed.
-/

set_option autoImplicit false

namespace sampleplayer

/-- JavaScript strings, modelled as lists of characters. -/
abbrev JStr := List Char

/-- Conversion of a Lean string literal into the `JStr` model. -/
def js (s : String) : JStr := s.toList

/-- Model of JavaScript `str.split(sep)` for a single-character separator:
splits into the (always nonempty) list of chunks between occurrences of
`sep`.  `"".split('.') = [""]` and separators at the ends produce empty
chunks, exactly as in JavaScript. -/
def splitChar (sep : Char) : List Char → List (List Char)
  | [] => [[]]
  | c :: cs =>
    if c = sep then [] :: splitChar sep cs
    else
      match splitChar sep cs with
      | [] => [[c]]
      | h :: t => (c :: h) :: t

/-- The suffix of `l` after the last occurrence of `sep`, or `none` when
`sep` does not occur.  This is the specification-side description of
"the substring after the last dot" used to characterise `getExtension_`. -/
def afterLast (sep : Char) : List Char → Option (List Char)
  | [] => none
  | c :: cs =>
    match afterLast sep cs with
    | some r => some r
    | none => if c = sep then some cs else none

/-- `sampleplayer.getExtension_` (player.js:1176-1183):
`parts = url.split('.')`; files with no extension (`parts.length === 1`)
and hidden files (`parts[0] === '' && parts.length === 2`) give `''`;
otherwise `parts.pop().toLowerCase()`. -/
def getExtension_ (url : JStr) : JStr :=
  let parts := splitChar '.' url
  if parts.length = 1 ∨ (parts.head? = some ([] : JStr) ∧ parts.length = 2) then []
  else (parts.getLastD []).map Char.toLower

/-- Model of JavaScript `str.indexOf(pat) > -1`: whether `pat` occurs as a
contiguous substring.  (For the empty pattern `indexOf` returns `0`, i.e.
`true`, matching `List.isPrefixOf [] _ = true`.) -/
def containsSeq (pat : List Char) : List Char → Bool
  | [] => pat.isEmpty
  | c :: cs => pat.isPrefixOf (c :: cs) || containsSeq pat cs

/-- The streaming protocol picked by `loadVideo_`; `native` models the
`protocolFunc == null` fallback (direct media-element playback). -/
inductive Protocol where
  | hls
  | dash
  | smooth
  | native
deriving DecidableEq, Repr

/-- The protocol selection chain of `loadVideo_` (player.js:470-480), as a
function of the URL path (`getPath_(contentId)`, produced by the browser URL
parser and therefore taken as an input here) and the content type
(`media.contentType || ''`).  Content types are compared with `===`
(exact equality); extensions via `getExtension_` (lowercased). -/
def selectProtocol (path ty : JStr) : Protocol :=
  if getExtension_ path = js "m3u8" ∨ ty = js "application/x-mpegurl" ∨
      ty = js "application/vnd.apple.mpegurl" then Protocol.hls
  else if getExtension_ path = js "mpd" ∨ ty = js "application/dash+xml" then Protocol.dash
  else if containsSeq (js ".ism") path = true ∨ ty = js "application/vnd.ms-sstr+xml" then
    Protocol.smooth
  else Protocol.native

/-- `sampleplayer.Type` (player.js:255-258). -/
inductive MType where
  | video
  | unknown
deriving DecidableEq, Repr

/-- `sampleplayer.getType_` (player.js:997-1025): content-type checks use
`contentType.indexOf(x) === 0` (prefix matching), with extension fallbacks;
`path` stands for `getPath_(media.contentId)`. -/
def getType_ (contentType path : JStr) : MType :=
  if (js "video/").isPrefixOf contentType then MType.video
  else if (js "application/x-mpegurl").isPrefixOf contentType then MType.video
  else if (js "application/vnd.apple.mpegurl").isPrefixOf contentType then MType.video
  else if (js "application/dash+xml").isPrefixOf contentType then MType.video
  else if (js "application/vnd.ms-sstr+xml").isPrefixOf contentType then MType.video
  else if getExtension_ path = js "m3u8" then MType.video
  else if getExtension_ path = js "mp4" then MType.video
  else if getExtension_ path = js "ogv" then MType.video
  else if getExtension_ path = js "webm" then MType.video
  else if getExtension_ path = js "m3u8" then MType.video
  else if getExtension_ path = js "mpd" then MType.video
  else MType.unknown

example : getExtension_ (js "/a/movie.M3U8") = js "m3u8" := by decide
example : getExtension_ (js "nodots") = [] := by decide
example : getExtension_ (js ".bashrc") = [] := by decide
example : getExtension_ (js "a.tar.GZ") = js "gz" := by decide
example : selectProtocol (js "/a/movie.M3U8") (js "") = Protocol.hls := by decide
example : selectProtocol (js "/v/x.ismv") (js "") = Protocol.smooth := by decide
example : selectProtocol (js "/v/clip.mp4") (js "") = Protocol.native := by decide
example : getType_ (js "application/x-mpegurl;charset=UTF-8") (js "/a/b") = MType.video := by
  decide

/-- `sampleplayer.State` (player.js:266-275). -/
inductive State where
  | launching
  | loading
  | buffering
  | playing
  | paused
  | stalled
  | done
  | idle
deriving DecidableEq, Repr

/-- `sampleplayer.IDLE_TIMEOUT` (player.js:240-247), read in `setState_` as
`IDLE_TIMEOUT[state.toUpperCase()]`: milliseconds before the receiver is
stopped; `none` models the `undefined` lookup for `BUFFERING`/`PLAYING`,
which are absent from the table. -/
def IDLE_TIMEOUT : State → Option Nat
  | State.launching => some (1000 * 60 * 5)
  | State.loading => some (1000 * 60 * 5)
  | State.paused => some (1000 * 60 * 20)
  | State.stalled => some (30 * 1000)
  | State.done => some (1000 * 60 * 5)
  | State.idle => some (1000 * 60 * 5)
  | State.buffering => none
  | State.playing => none

/-- The `CastPlayer` instance fields touched by the verified claims, plus
logs of the calls it makes on its external collaborators.
`idleTimers` is the pool of outstanding idle-shutdown timers `(id, duration)`
with `idleTimerId` the remembered `this.idleTimerId_` and `idleNext` the
fresh-id source; `autoPlayTimerId` is `this.playerAutoPlayTimerId_`;
`session` is whether `this.player_` is non-null and `sessionsCreated` counts
`new cast.player.api.Player(host)` calls; `mediaInfo` abstracts
`mediaManager_.getMediaInformation()` (`some title?` when media is loaded);
`applicationState` is the last string passed to `setApplicationState`. -/
structure Player where
  state : State
  type_ : MType
  session : Bool
  sessionsCreated : Nat
  nativeLoads : Nat
  idleNext : Nat
  idleTimers : List (Nat × Nat)
  idleTimerId : Option Nat
  autoPlayTimerId : Option Nat
  playerAutoPlay : Bool
  mediaInfo : Option (Option JStr)
  applicationState : Option JStr
  appBroadcasts : List JStr
  statusBroadcasts : List Bool
  errorHooks : List Nat
  metadataErrorHooks : List Nat
deriving DecidableEq, Repr

/-- `clearTimeout(this.idleTimerId_)`: removes the remembered idle timer
from the pool (a no-op on an id that is not pending); the stale id stays
remembered, as in the source. -/
def clearIdleTimer (p : Player) : Player :=
  match p.idleTimerId with
  | none => p
  | some i => { p with idleTimers := p.idleTimers.filter (fun t => t.1 ≠ i) }

/-- `setIdleTimeout_` (player.js:528-537): always clears the previous timer;
arms a fresh one only when `t` is truthy (present and nonzero). -/
def setIdleTimeout_ (t : Option Nat) (p : Player) : Player :=
  let q := clearIdleTimer p
  match t with
  | none => q
  | some d =>
    if d = 0 then q
    else
      { q with
        idleTimers := q.idleTimers ++ [(q.idleNext, d)]
        idleTimerId := some q.idleNext
        idleNext := q.idleNext + 1 }

/-- `sampleplayer.getApplicationState_` (player.js:1194-1202); the argument
is `opt_media` with its optional `metadata.title`. -/
def getApplicationState_ : Option (Option JStr) → JStr
  | some (some title) => js "Now Casting: " ++ title
  | some none => js "Now Casting"
  | none => js "Ready To Cast"

/-- `updateApplicationState_` (player.js:593-604): recomputes the
application-state string (with `media = null` when idle) and broadcasts it
only when it differs from the previously broadcast one. -/
def updateApplicationState_ (p : Player) : Player :=
  let media := if p.state = State.idle then none else p.mediaInfo
  let s := getApplicationState_ media
  if p.applicationState = some s then p
  else
    { p with
      applicationState := some s
      appBroadcasts := p.appBroadcasts ++ [s] }

/-- The completed-transition branch of `setState_` (player.js:563-585, the
`else` branch with no delay and no crossfade): store the state, update the
application state, re-arm the idle timer from `IDLE_TIMEOUT`.  The crossfade
variant runs exactly this action inside `transition_`, so a completed
crossfaded transition has the same effect on the player state. -/
def setState_ (st : State) (p : Player) : Player :=
  setIdleTimeout_ (IDLE_TIMEOUT st) (updateApplicationState_ { p with state := st })

/-- `cancelPlayerAutoPlay_` (player.js:928-935): clears the pending deferred
playback timer, if its id is remembered. -/
def cancelPlayerAutoPlay_ (p : Player) : Player :=
  match p.autoPlayTimerId with
  | none => p
  | some _ => { p with autoPlayTimerId := none }

/-- `onProgress_` (player.js:768-775): only a `BUFFERING`/`LOADING` state is
changed (to `PLAYING`); `updateProgress_` touches only DOM labels and is
outside the model. -/
def onProgress_ (p : Player) : Player :=
  if p.state = State.buffering ∨ p.state = State.loading then setState_ State.playing p
  else p

/-- JavaScript strict equality `===` on two possibly-NaN numbers (`none` =
`NaN`): `NaN === x` is false, so only two known numbers compare equal. -/
def jsStrictEq (a b : Option ℚ) : Bool :=
  match a, b with
  | some x, some y => decide (x = y)
  | _, _ => false

/-- `onPause_` (player.js:692-706).  Oracle inputs: `uf` is the backend's
`getState()['underflow']` reading, `ct`/`dur` are the media element's
`currentTime`/`duration` (`none` = `NaN`), compared with `===` for
`isDone`. -/
def onPause_ (uf : Bool) (ct dur : Option ℚ) (p : Player) : Player :=
  let p := cancelPlayerAutoPlay_ p
  let isIdle : Bool := decide (p.state = State.idle)
  let isDone : Bool := jsStrictEq ct dur
  let isUnderflow : Bool := p.session && uf
  if isUnderflow then
    let q := setState_ State.buffering p
    { q with statusBroadcasts := q.statusBroadcasts ++ [false] }
  else if !isIdle && !isDone then setState_ State.paused p
  else p

/-- `onError_` (player.js:645-653): inside `transition_`, set state `IDLE`
(the crossfaded call completes as `setState_`) and forward the original
error object to `onErrorOrig_`; `err` abstracts the error payload. -/
def onError_ (err : Nat) (p : Player) : Player :=
  let q := setState_ State.idle p
  { q with errorHooks := q.errorHooks ++ [err] }

/-- `onLoadMetadataError_` (player.js:866-874): inside `transition_`, set
state `IDLE` and forward the original `LoadInfo` to
`onLoadMetadataErrorOrig_`. -/
def onLoadMetadataError_ (ev : Nat) (p : Player) : Player :=
  let q := setState_ State.idle p
  { q with metadataErrorHooks := q.metadataErrorHooks ++ [ev] }

/-- `host.onError` as installed by `loadVideo_` (player.js:498-505): when a
player is attached, unload it, null it and dispatch a fresh `error` event on
the media element, which runs `onError_` with the synthesized event
`synth`. -/
def hostOnError (synth : Nat) (p : Player) : Player :=
  if p.session = true then onError_ synth { p with session := false }
  else p

/-- `resetMediaElement_` (player.js:426-432): unload and clear the player
handle if one is attached. -/
def resetMediaElement_ (p : Player) : Player :=
  if p.session = true then { p with session := false } else p

/-- The fields of a `cast.receiver.MediaManager.LoadInfo` the model needs:
`contentId`, `contentType` (already defaulted to `''`), the URL path
`getPath_(contentId)` as parsed by the browser (an oracle input), the
tri-state `autoplay` flag, and an abstract identity `payload` used to log
which `LoadInfo` was forwarded to an error hook. -/
structure LoadInfo where
  contentId : JStr
  contentType : JStr
  path : JStr
  autoplay : Option Bool
  payload : Nat
deriving DecidableEq, Repr

/-- `loadVideo_` (player.js:462-519), reduced to the model's fields: the
native branch forwards the load to `onLoadOrig_`; the Media Player Library
branch records `playerAutoPlay_ = autoplay === undefined ? true : autoplay`
and creates the backend player. -/
def loadVideo_ (info : LoadInfo) (p : Player) : Player :=
  match selectProtocol info.path info.contentType with
  | Protocol.native => { p with nativeLoads := p.nativeLoads + 1 }
  | _ =>
    { p with
      playerAutoPlay := info.autoplay.getD true
      session := true
      sessionsCreated := p.sessionsCreated + 1 }

/-- `load` (player.js:382-418): clear the idle timer, validate
(`!media.contentId`, then `getType_ == UNKNOWN` → `onLoadMetadataError_`);
on success reset the old backend, set the type, run `loadVideo_`, and —
once preload and the transition complete — enter `LOADING`. -/
def load (info : LoadInfo) (p : Player) : Player :=
  let p := clearIdleTimer p
  let playerType := getType_ info.contentType info.path
  if info.contentId = [] then onLoadMetadataError_ info.payload p
  else if playerType = MType.unknown then onLoadMetadataError_ info.payload p
  else
    let p := resetMediaElement_ p
    let p := { p with type_ := playerType }
    let p := loadVideo_ info p
    setState_ State.loading p

/-- `sampleplayer.PUMP_POLLING_INTERVAL_` (player.js:283), in ms. -/
def PUMP_POLLING_INTERVAL : Nat := 200

/-- `sampleplayer.INITIAL_PUMP_DURATION_` (player.js:291), in seconds. -/
def INITIAL_PUMP_DURATION : ℚ := 5

/-- `sampleplayer.MEDIA_INFO_DURATION_` (player.js:299), in ms. -/
def MEDIA_INFO_DURATION : Nat := 2 * 1000

/-- `this.playerAutoPlay_ = autoplay === undefined ? true : autoplay`
(player.js:514). -/
def playerAutoPlayOf (autoplay : Option Bool) : Bool := autoplay.getD true

/-- The poll loop of `doPlayerAutoPlay_` (player.js:904-920), unrolled over
the sequence of `getBufferedDuration_()` readings the successive invocations
observe (one entry per invocation, 200 ms apart): the result is the index of
the invocation at which `bufferedDuration >= INITIAL_PUMP_DURATION_` first
holds and `mediaElement.play()` runs, or `none` if the threshold is never
reached within the observed readings. -/
def doPlayerAutoPlay_ : List ℚ → Option Nat
  | [] => none
  | lead :: rest =>
    if INITIAL_PUMP_DURATION ≤ lead then some 0
    else (doPlayerAutoPlay_ rest).map (· + 1)

/-- The autoplay block of `onLoadSuccess_` (player.js:944-971): when a
backend player is attached and `playerAutoPlay_` holds, a 2000 ms timeout is
armed whose callback either enters the poll loop (duration known and above
the pump threshold) or plays immediately.  The result is the time (ms after
`loadedmetadata`) at which `play()` is called, `none` when autoplay is not
handled by the app (or the threshold is never reached).  `duration` is the
media element's reported duration (`none` = `NaN`), captured before the
delay, and `leads` are the buffered-lead readings of the successive polls. -/
def onLoadSuccess_ (hasPlayer playerAutoPlay : Bool) (duration : Option ℚ)
    (leads : List ℚ) : Option Nat :=
  if hasPlayer && playerAutoPlay then
    match duration with
    | some d =>
      if INITIAL_PUMP_DURATION < d then
        (doPlayerAutoPlay_ leads).map (fun k => MEDIA_INFO_DURATION + PUMP_POLLING_INTERVAL * k)
      else some MEDIA_INFO_DURATION
    | none => some MEDIA_INFO_DURATION
  else none

/-- The two kinds of deferred-playback callbacks of the autoplay controller:
the 2000 ms display-delay callback armed by `onLoadSuccess_` (carrying the
closure's knowledge of whether the duration is known and above the pump
threshold) and the 200 ms poll callback armed by `doPlayerAutoPlay_`. -/
inductive APCb where
  | delay (bigKnownDur : Bool)
  | poll
deriving DecidableEq, Repr

/-- The autoplay timer subsystem: outstanding timers `(id, callback)`, the
remembered `playerAutoPlayTimerId_` (`tracked`), a fresh-id source, and
whether `mediaElement.play()` has been called by the controller. -/
structure APSys where
  nextId : Nat
  pending : List (Nat × APCb)
  tracked : Option Nat
  played : Bool
deriving DecidableEq, Repr

/-- The subsystem state at construction (player.js:177). -/
def apInit : APSys := { nextId := 0, pending := [], tracked := none, played := false }

/-- The `setTimeout(..., MEDIA_INFO_DURATION_)` of `onLoadSuccess_`
(player.js:962-969): the display-delay timer is armed but its id is
discarded — `playerAutoPlayTimerId_` is NOT updated. -/
def apOnLoadSuccess (bigKnownDur : Bool) (s : APSys) : APSys :=
  { s with
    pending := s.pending ++ [(s.nextId, APCb.delay bigKnownDur)]
    nextId := s.nextId + 1 }

/-- `cancelPlayerAutoPlay_` (player.js:928-935) on the timer subsystem:
clears the remembered timer id, if any. -/
def apCancel (s : APSys) : APSys :=
  match s.tracked with
  | none => s
  | some i =>
    { s with
      pending := s.pending.filter (fun t => t.1 ≠ i)
      tracked := none }

/-- One invocation of `doPlayerAutoPlay_` (player.js:904-920) with the
buffered-lead reading `lead`: play and drop the remembered id when the pump
threshold is met, otherwise arm (and remember) the next poll timer. -/
def apDoPlayerAutoPlay (lead : ℚ) (s : APSys) : APSys :=
  if INITIAL_PUMP_DURATION ≤ lead then { s with played := true, tracked := none }
  else
    { s with
      pending := s.pending ++ [(s.nextId, APCb.poll)]
      tracked := some s.nextId
      nextId := s.nextId + 1 }

/-- Firing of a timer `i`: possible only while `i` is still pending (a
cleared timeout never fires); the timer is consumed and its callback runs
(`onLoadSuccess_`'s anonymous callback, player.js:962-969, or the poll
handler). -/
def apFire (i : Nat) (lead : ℚ) (s : APSys) : APSys :=
  match s.pending.find? (fun t => t.1 = i) with
  | none => s
  | some (_, cb) =>
    let s := { s with pending := s.pending.filter (fun t => t.1 ≠ i) }
    match cb with
    | APCb.delay bigKnownDur =>
      if bigKnownDur then apDoPlayerAutoPlay lead s
      else { s with played := true }
    | APCb.poll => apDoPlayerAutoPlay lead s

/-! ### Helper lemmas about the split-based extension extractor -/

theorem splitChar_cons_self (sep : Char) (cs : List Char) :
    splitChar sep (sep :: cs) = [] :: splitChar sep cs := by
  simp [splitChar]

theorem splitChar_ne_nil (sep : Char) (l : List Char) : splitChar sep l ≠ [] := by
  induction l with
  | nil => simp [splitChar]
  | cons c cs ih =>
    by_cases h : c = sep
    · subst h; simp [splitChar_cons_self]
    · simp only [splitChar, if_neg h]
      cases hs : splitChar sep cs with
      | nil => simp
      | cons a t => simp

theorem splitChar_not_mem (sep : Char) (l : List Char) (h : sep ∉ l) :
    splitChar sep l = [l] := by
  induction l with
  | nil => rfl
  | cons c cs ih =>
    have hc : c ≠ sep := fun hc => h (hc ▸ List.mem_cons_self c cs)
    have hcs : sep ∉ cs := fun hm => h (List.mem_cons_of_mem c hm)
    simp only [splitChar, if_neg hc, ih hcs]

theorem splitChar_cons_ne (sep c : Char) (cs : List Char) (h : c ≠ sep) :
    ∃ a t, splitChar sep cs = a :: t ∧ splitChar sep (c :: cs) = (c :: a) :: t := by
  cases hs : splitChar sep cs with
  | nil => exact absurd hs (splitChar_ne_nil sep cs)
  | cons a t =>
    refine ⟨a, t, rfl, ?_⟩
    simp only [splitChar, if_neg h, hs]

theorem two_le_length_splitChar (sep : Char) (l : List Char) (h : sep ∈ l) :
    2 ≤ (splitChar sep l).length := by
  induction l with
  | nil => cases h
  | cons c cs ih =>
    by_cases hc : c = sep
    · subst hc
      rw [splitChar_cons_self, List.length_cons]
      have hne := splitChar_ne_nil c cs
      have h1 : 1 ≤ (splitChar c cs).length :=
        Nat.one_le_iff_ne_zero.mpr (fun h0 => hne (List.length_eq_zero.mp h0))
      omega
    · have hcs : sep ∈ cs := by
        cases List.mem_cons.mp h with
        | inl he => exact absurd he.symm hc
        | inr hm => exact hm
      obtain ⟨a, t, hs, hcons⟩ := splitChar_cons_ne sep c cs hc
      have hlen := ih hcs
      rw [hs] at hlen
      rw [hcons]
      simpa using hlen

theorem afterLast_eq_none_iff (sep : Char) (l : List Char) :
    afterLast sep l = none ↔ sep ∉ l := by
  induction l with
  | nil => simp [afterLast]
  | cons c cs ih =>
    simp only [afterLast, List.mem_cons]
    cases hcs : afterLast sep cs with
    | some r =>
      have hmem : sep ∈ cs := by
        by_contra hnm
        rw [ih.mpr hnm] at hcs
        cases hcs
      simp [hmem]
    | none =>
      have hnm : sep ∉ cs := ih.mp hcs
      by_cases hc : c = sep
      · subst hc
        simp [hnm]
      · have : sep ≠ c := fun he => hc he.symm
        simp [hc, hnm, this]

theorem getLast?_splitChar (sep : Char) (l : List Char) (r : List Char)
    (h : afterLast sep l = some r) : (splitChar sep l).getLast? = some r := by
  induction l generalizing r with
  | nil => cases h
  | cons c cs ih =>
    simp only [afterLast] at h
    cases hcs : afterLast sep cs with
    | some r' =>
      rw [hcs] at h
      simp only [Option.some.injEq] at h
      subst h
      have hmem : sep ∈ cs := by
        by_contra hnm
        rw [(afterLast_eq_none_iff sep cs).mpr hnm] at hcs
        cases hcs
      have hlast : (splitChar sep cs).getLast? = some r' := ih r' hcs
      by_cases hc : c = sep
      · subst hc
        rw [splitChar_cons_self]
        cases hsp : splitChar c cs with
        | nil => exact absurd hsp (splitChar_ne_nil c cs)
        | cons a t => rw [hsp] at hlast; rw [List.getLast?_cons_cons, hlast]
      · obtain ⟨a, t, hs, hcons⟩ := splitChar_cons_ne sep c cs hc
        rw [hcons]
        have h2 := two_le_length_splitChar sep cs hmem
        rw [hs] at h2 hlast
        cases t with
        | nil => simp at h2
        | cons b t' =>
          rw [List.getLast?_cons_cons] at hlast ⊢
          exact hlast
    | none =>
      rw [hcs] at h
      by_cases hc : c = sep
      · rw [if_pos hc] at h
        simp only [Option.some.injEq] at h
        subst h
        have hnm : sep ∉ cs := (afterLast_eq_none_iff sep cs).mp hcs
        subst hc
        rw [splitChar_cons_self, splitChar_not_mem c cs hnm]
        rfl
      · rw [if_neg hc] at h
        cases h

theorem getLastD_eq_of_getLast? {α : Type} (l : List α) (d a : α)
    (h : l.getLast? = some a) : l.getLastD d = a := by
  rw [List.getLastD_eq_getLast?, h]
  rfl

/-! ### C1 -/

/-- C1: protocol selection (`loadVideo_`, player.js:470-480) is a pure total
function of the URL path and content type, checked in priority order with
the first match winning: lowercased extension `m3u8` or exact content type
`application/x-mpegurl` / `application/vnd.apple.mpegurl` selects HLS;
extension `mpd` or content type `application/dash+xml` selects DASH; a path
containing `.ism` or content type `application/vnd.ms-sstr+xml` selects
SmoothStreaming; otherwise Native — and the extension match is
case-insensitive (`/a/movie.M3U8` selects HLS). -/
theorem protocol_selection_policy :
    (∀ path ty : JStr,
      (getExtension_ path = js "m3u8" ∨ ty = js "application/x-mpegurl" ∨
        ty = js "application/vnd.apple.mpegurl") →
      selectProtocol path ty = Protocol.hls) ∧
    (∀ path ty : JStr,
      ¬(getExtension_ path = js "m3u8" ∨ ty = js "application/x-mpegurl" ∨
        ty = js "application/vnd.apple.mpegurl") →
      (getExtension_ path = js "mpd" ∨ ty = js "application/dash+xml") →
      selectProtocol path ty = Protocol.dash) ∧
    (∀ path ty : JStr,
      ¬(getExtension_ path = js "m3u8" ∨ ty = js "application/x-mpegurl" ∨
        ty = js "application/vnd.apple.mpegurl") →
      ¬(getExtension_ path = js "mpd" ∨ ty = js "application/dash+xml") →
      (containsSeq (js ".ism") path = true ∨ ty = js "application/vnd.ms-sstr+xml") →
      selectProtocol path ty = Protocol.smooth) ∧
    (∀ path ty : JStr,
      ¬(getExtension_ path = js "m3u8" ∨ ty = js "application/x-mpegurl" ∨
        ty = js "application/vnd.apple.mpegurl") →
      ¬(getExtension_ path = js "mpd" ∨ ty = js "application/dash+xml") →
      ¬(containsSeq (js ".ism") path = true ∨ ty = js "application/vnd.ms-sstr+xml") →
      selectProtocol path ty = Protocol.native) ∧
    selectProtocol (js "/a/movie.M3U8") (js "") = Protocol.hls := by
  refine ⟨?_, ?_, ?_, ?_, by decide⟩
  · intro path ty h
    simp only [selectProtocol, if_pos h]
  · intro path ty h1 h2
    simp only [selectProtocol, if_neg h1, if_pos h2]
  · intro path ty h1 h2 h3
    simp only [selectProtocol, if_neg h1, if_neg h2, if_pos h3]
  · intro path ty h1 h2 h3
    simp only [selectProtocol, if_neg h1, if_neg h2, if_neg h3]

/-- Witness for C1: the HLS clause applied at a concrete descriptor. -/
theorem protocol_selection_policy_witness :
    selectProtocol (js "/x/stream.m3u8") (js "video/mp4") = Protocol.hls :=
  protocol_selection_policy.1 (js "/x/stream.m3u8") (js "video/mp4") (Or.inl (by decide))

/-! ### C10 -/

/-- C10: `getExtension_` returns the empty string when `url` contains no `'.'`
and when `url` is a single leading-dot hidden-file name (head `'.'`, no other
dot); in all other cases it returns the substring after the last `'.'`
(the specification-side `afterLast`) converted to lower case, so multi-dot
names use only the final segment. -/
theorem extension_extractor_spec :
    ∀ url : JStr,
      ('.' ∉ url → getExtension_ url = []) ∧
      (url.head? = some '.' → '.' ∉ url.tail → getExtension_ url = []) ∧
      (∀ r : JStr, afterLast '.' url = some r →
        ¬(url.head? = some '.' ∧ '.' ∉ url.tail) →
        getExtension_ url = r.map Char.toLower) := by
  intro url
  refine ⟨?_, ?_, ?_⟩
  · intro h
    simp [getExtension_, splitChar_not_mem '.' url h]
  · intro h1 h2
    cases url with
    | nil => cases h1
    | cons c cs =>
      simp only [List.head?_cons, Option.some.injEq] at h1
      subst h1
      simp only [List.tail_cons] at h2
      simp [getExtension_, splitChar_cons_self, splitChar_not_mem '.' cs h2]
  · intro r h hnh
    have hmem : '.' ∈ url := by
      by_contra hnm
      rw [(afterLast_eq_none_iff '.' url).mpr hnm] at h
      cases h
    have h2 := two_le_length_splitChar '.' url hmem
    have hlast := getLast?_splitChar '.' url r h
    have hcond : ¬((splitChar '.' url).length = 1 ∨
        ((splitChar '.' url).head? = some ([] : JStr) ∧ (splitChar '.' url).length = 2)) := by
      rintro (h1 | ⟨hh, hl⟩)
      · omega
      · cases url with
        | nil => cases hmem
        | cons c cs =>
          by_cases hc : c = '.'
          · subst hc
            rw [splitChar_cons_self] at hl
            simp only [List.length_cons] at hl
            have hnm : '.' ∉ cs := by
              intro hm
              have := two_le_length_splitChar '.' cs hm
              omega
            exact hnh ⟨rfl, hnm⟩
          · obtain ⟨a, t, hs, hcons⟩ := splitChar_cons_ne '.' c cs hc
            rw [hcons] at hh
            simp at hh
    simp only [getExtension_]
    rw [if_neg hcond, getLastD_eq_of_getLast? _ _ _ hlast]

/-- Witness for C10: all three clauses applied at concrete inputs, including
a multi-dot upper-case name whose final segment is lowercased. -/
theorem extension_extractor_spec_witness :
    getExtension_ (js "A.B.M3U8") = (js "M3U8").map Char.toLower ∧
    getExtension_ (js "nodot") = [] ∧
    getExtension_ (js ".hidden") = [] :=
  ⟨(extension_extractor_spec (js "A.B.M3U8")).2.2 (js "M3U8") (by decide) (by decide),
   (extension_extractor_spec (js "nodot")).1 (by decide),
   (extension_extractor_spec (js ".hidden")).2.1 (by decide) (by decide)⟩

/-! ### Projection lemmas for the player operations -/

theorem updateApplicationState_state (p : Player) :
    (updateApplicationState_ p).state = p.state := by
  simp only [updateApplicationState_]; split_ifs <;> rfl

theorem updateApplicationState_type (p : Player) :
    (updateApplicationState_ p).type_ = p.type_ := by
  simp only [updateApplicationState_]; split_ifs <;> rfl

theorem updateApplicationState_session (p : Player) :
    (updateApplicationState_ p).session = p.session := by
  simp only [updateApplicationState_]; split_ifs <;> rfl

theorem updateApplicationState_sessionsCreated (p : Player) :
    (updateApplicationState_ p).sessionsCreated = p.sessionsCreated := by
  simp only [updateApplicationState_]; split_ifs <;> rfl

theorem updateApplicationState_nativeLoads (p : Player) :
    (updateApplicationState_ p).nativeLoads = p.nativeLoads := by
  simp only [updateApplicationState_]; split_ifs <;> rfl

theorem updateApplicationState_idleNext (p : Player) :
    (updateApplicationState_ p).idleNext = p.idleNext := by
  simp only [updateApplicationState_]; split_ifs <;> rfl

theorem updateApplicationState_idleTimers (p : Player) :
    (updateApplicationState_ p).idleTimers = p.idleTimers := by
  simp only [updateApplicationState_]; split_ifs <;> rfl

theorem updateApplicationState_idleTimerId (p : Player) :
    (updateApplicationState_ p).idleTimerId = p.idleTimerId := by
  simp only [updateApplicationState_]; split_ifs <;> rfl

theorem updateApplicationState_autoPlayTimerId (p : Player) :
    (updateApplicationState_ p).autoPlayTimerId = p.autoPlayTimerId := by
  simp only [updateApplicationState_]; split_ifs <;> rfl

theorem updateApplicationState_playerAutoPlay (p : Player) :
    (updateApplicationState_ p).playerAutoPlay = p.playerAutoPlay := by
  simp only [updateApplicationState_]; split_ifs <;> rfl

theorem updateApplicationState_mediaInfo (p : Player) :
    (updateApplicationState_ p).mediaInfo = p.mediaInfo := by
  simp only [updateApplicationState_]; split_ifs <;> rfl

theorem updateApplicationState_statusBroadcasts (p : Player) :
    (updateApplicationState_ p).statusBroadcasts = p.statusBroadcasts := by
  simp only [updateApplicationState_]; split_ifs <;> rfl

theorem updateApplicationState_errorHooks (p : Player) :
    (updateApplicationState_ p).errorHooks = p.errorHooks := by
  simp only [updateApplicationState_]; split_ifs <;> rfl

theorem updateApplicationState_metadataErrorHooks (p : Player) :
    (updateApplicationState_ p).metadataErrorHooks = p.metadataErrorHooks := by
  simp only [updateApplicationState_]; split_ifs <;> rfl

theorem clearIdleTimer_state (p : Player) : (clearIdleTimer p).state = p.state := by
  unfold clearIdleTimer; split <;> rfl

theorem clearIdleTimer_type (p : Player) : (clearIdleTimer p).type_ = p.type_ := by
  unfold clearIdleTimer; split <;> rfl

theorem clearIdleTimer_session (p : Player) : (clearIdleTimer p).session = p.session := by
  unfold clearIdleTimer; split <;> rfl

theorem clearIdleTimer_sessionsCreated (p : Player) :
    (clearIdleTimer p).sessionsCreated = p.sessionsCreated := by
  unfold clearIdleTimer; split <;> rfl

theorem clearIdleTimer_nativeLoads (p : Player) :
    (clearIdleTimer p).nativeLoads = p.nativeLoads := by
  unfold clearIdleTimer; split <;> rfl

theorem clearIdleTimer_idleNext (p : Player) : (clearIdleTimer p).idleNext = p.idleNext := by
  unfold clearIdleTimer; split <;> rfl

theorem clearIdleTimer_idleTimerId (p : Player) :
    (clearIdleTimer p).idleTimerId = p.idleTimerId := by
  unfold clearIdleTimer; split <;> rfl

theorem clearIdleTimer_autoPlayTimerId (p : Player) :
    (clearIdleTimer p).autoPlayTimerId = p.autoPlayTimerId := by
  unfold clearIdleTimer; split <;> rfl

theorem clearIdleTimer_playerAutoPlay (p : Player) :
    (clearIdleTimer p).playerAutoPlay = p.playerAutoPlay := by
  unfold clearIdleTimer; split <;> rfl

theorem clearIdleTimer_mediaInfo (p : Player) :
    (clearIdleTimer p).mediaInfo = p.mediaInfo := by
  unfold clearIdleTimer; split <;> rfl

theorem clearIdleTimer_applicationState (p : Player) :
    (clearIdleTimer p).applicationState = p.applicationState := by
  unfold clearIdleTimer; split <;> rfl

theorem clearIdleTimer_appBroadcasts (p : Player) :
    (clearIdleTimer p).appBroadcasts = p.appBroadcasts := by
  unfold clearIdleTimer; split <;> rfl

theorem clearIdleTimer_statusBroadcasts (p : Player) :
    (clearIdleTimer p).statusBroadcasts = p.statusBroadcasts := by
  unfold clearIdleTimer; split <;> rfl

theorem clearIdleTimer_errorHooks (p : Player) :
    (clearIdleTimer p).errorHooks = p.errorHooks := by
  unfold clearIdleTimer; split <;> rfl

theorem clearIdleTimer_metadataErrorHooks (p : Player) :
    (clearIdleTimer p).metadataErrorHooks = p.metadataErrorHooks := by
  unfold clearIdleTimer; split <;> rfl

theorem setIdleTimeout_state (t : Option Nat) (p : Player) :
    (setIdleTimeout_ t p).state = p.state := by
  simp only [setIdleTimeout_]
  split <;> [skip; split] <;> simp [clearIdleTimer_state]

theorem setIdleTimeout_type (t : Option Nat) (p : Player) :
    (setIdleTimeout_ t p).type_ = p.type_ := by
  simp only [setIdleTimeout_]
  split <;> [skip; split] <;> simp [clearIdleTimer_type]

theorem setIdleTimeout_session (t : Option Nat) (p : Player) :
    (setIdleTimeout_ t p).session = p.session := by
  simp only [setIdleTimeout_]
  split <;> [skip; split] <;> simp [clearIdleTimer_session]

theorem setIdleTimeout_sessionsCreated (t : Option Nat) (p : Player) :
    (setIdleTimeout_ t p).sessionsCreated = p.sessionsCreated := by
  simp only [setIdleTimeout_]
  split <;> [skip; split] <;> simp [clearIdleTimer_sessionsCreated]

theorem setIdleTimeout_nativeLoads (t : Option Nat) (p : Player) :
    (setIdleTimeout_ t p).nativeLoads = p.nativeLoads := by
  simp only [setIdleTimeout_]
  split <;> [skip; split] <;> simp [clearIdleTimer_nativeLoads]

theorem setIdleTimeout_autoPlayTimerId (t : Option Nat) (p : Player) :
    (setIdleTimeout_ t p).autoPlayTimerId = p.autoPlayTimerId := by
  simp only [setIdleTimeout_]
  split <;> [skip; split] <;> simp [clearIdleTimer_autoPlayTimerId]

theorem setIdleTimeout_playerAutoPlay (t : Option Nat) (p : Player) :
    (setIdleTimeout_ t p).playerAutoPlay = p.playerAutoPlay := by
  simp only [setIdleTimeout_]
  split <;> [skip; split] <;> simp [clearIdleTimer_playerAutoPlay]

theorem setIdleTimeout_mediaInfo (t : Option Nat) (p : Player) :
    (setIdleTimeout_ t p).mediaInfo = p.mediaInfo := by
  simp only [setIdleTimeout_]
  split <;> [skip; split] <;> simp [clearIdleTimer_mediaInfo]

theorem setIdleTimeout_applicationState (t : Option Nat) (p : Player) :
    (setIdleTimeout_ t p).applicationState = p.applicationState := by
  simp only [setIdleTimeout_]
  split <;> [skip; split] <;> simp [clearIdleTimer_applicationState]

theorem setIdleTimeout_appBroadcasts (t : Option Nat) (p : Player) :
    (setIdleTimeout_ t p).appBroadcasts = p.appBroadcasts := by
  simp only [setIdleTimeout_]
  split <;> [skip; split] <;> simp [clearIdleTimer_appBroadcasts]

theorem setIdleTimeout_statusBroadcasts (t : Option Nat) (p : Player) :
    (setIdleTimeout_ t p).statusBroadcasts = p.statusBroadcasts := by
  simp only [setIdleTimeout_]
  split <;> [skip; split] <;> simp [clearIdleTimer_statusBroadcasts]

theorem setIdleTimeout_errorHooks (t : Option Nat) (p : Player) :
    (setIdleTimeout_ t p).errorHooks = p.errorHooks := by
  simp only [setIdleTimeout_]
  split <;> [skip; split] <;> simp [clearIdleTimer_errorHooks]

theorem setIdleTimeout_metadataErrorHooks (t : Option Nat) (p : Player) :
    (setIdleTimeout_ t p).metadataErrorHooks = p.metadataErrorHooks := by
  simp only [setIdleTimeout_]
  split <;> [skip; split] <;> simp [clearIdleTimer_metadataErrorHooks]

theorem setState_state (st : State) (p : Player) : (setState_ st p).state = st := by
  simp [setState_, setIdleTimeout_state, updateApplicationState_state]

theorem setState_type (st : State) (p : Player) : (setState_ st p).type_ = p.type_ := by
  simp [setState_, setIdleTimeout_type, updateApplicationState_type]

theorem setState_session (st : State) (p : Player) :
    (setState_ st p).session = p.session := by
  simp [setState_, setIdleTimeout_session, updateApplicationState_session]

theorem setState_sessionsCreated (st : State) (p : Player) :
    (setState_ st p).sessionsCreated = p.sessionsCreated := by
  simp [setState_, setIdleTimeout_sessionsCreated, updateApplicationState_sessionsCreated]

theorem setState_nativeLoads (st : State) (p : Player) :
    (setState_ st p).nativeLoads = p.nativeLoads := by
  simp [setState_, setIdleTimeout_nativeLoads, updateApplicationState_nativeLoads]

theorem setState_autoPlayTimerId (st : State) (p : Player) :
    (setState_ st p).autoPlayTimerId = p.autoPlayTimerId := by
  simp [setState_, setIdleTimeout_autoPlayTimerId, updateApplicationState_autoPlayTimerId]

theorem setState_playerAutoPlay (st : State) (p : Player) :
    (setState_ st p).playerAutoPlay = p.playerAutoPlay := by
  simp [setState_, setIdleTimeout_playerAutoPlay, updateApplicationState_playerAutoPlay]

theorem setState_mediaInfo (st : State) (p : Player) :
    (setState_ st p).mediaInfo = p.mediaInfo := by
  simp [setState_, setIdleTimeout_mediaInfo, updateApplicationState_mediaInfo]

theorem setState_statusBroadcasts (st : State) (p : Player) :
    (setState_ st p).statusBroadcasts = p.statusBroadcasts := by
  simp [setState_, setIdleTimeout_statusBroadcasts, updateApplicationState_statusBroadcasts]

theorem setState_errorHooks (st : State) (p : Player) :
    (setState_ st p).errorHooks = p.errorHooks := by
  simp [setState_, setIdleTimeout_errorHooks, updateApplicationState_errorHooks]

theorem setState_metadataErrorHooks (st : State) (p : Player) :
    (setState_ st p).metadataErrorHooks = p.metadataErrorHooks := by
  simp [setState_, setIdleTimeout_metadataErrorHooks, updateApplicationState_metadataErrorHooks]

theorem cancelPlayerAutoPlay_state (p : Player) :
    (cancelPlayerAutoPlay_ p).state = p.state := by
  unfold cancelPlayerAutoPlay_; split <;> rfl

theorem cancelPlayerAutoPlay_type (p : Player) :
    (cancelPlayerAutoPlay_ p).type_ = p.type_ := by
  unfold cancelPlayerAutoPlay_; split <;> rfl

theorem cancelPlayerAutoPlay_session (p : Player) :
    (cancelPlayerAutoPlay_ p).session = p.session := by
  unfold cancelPlayerAutoPlay_; split <;> rfl

theorem cancelPlayerAutoPlay_statusBroadcasts (p : Player) :
    (cancelPlayerAutoPlay_ p).statusBroadcasts = p.statusBroadcasts := by
  unfold cancelPlayerAutoPlay_; split <;> rfl

theorem cancelPlayerAutoPlay_none (p : Player) :
    (cancelPlayerAutoPlay_ p).autoPlayTimerId = none := by
  unfold cancelPlayerAutoPlay_
  cases h : p.autoPlayTimerId <;> simp_all

/-! ### C2 -/

/-- Any sequence of completed transitions, applied in order. -/
def runStates (l : List State) (p : Player) : Player :=
  l.foldl (fun q st => setState_ st q) p

/-- The idle-timer invariant: at most one idle timer is armed, and every
armed one is the remembered `idleTimerId_`. -/
def IdleInv (p : Player) : Prop :=
  p.idleTimers.length ≤ 1 ∧ ∀ t ∈ p.idleTimers, p.idleTimerId = some t.1

theorem clearIdleTimer_timers_nil (q : Player)
    (h : ∀ x ∈ q.idleTimers, q.idleTimerId = some x.1) :
    (clearIdleTimer q).idleTimers = [] := by
  unfold clearIdleTimer
  cases hid : q.idleTimerId with
  | none =>
    cases hts : q.idleTimers with
    | nil => simp [hts]
    | cons a l =>
      have := h a (by rw [hts]; exact List.mem_cons_self a l)
      rw [hid] at this
      cases this
  | some i =>
    simp only
    rw [List.filter_eq_nil_iff]
    intro a ha
    have := h a ha
    rw [hid] at this
    simp only [Option.some.injEq] at this
    simp [← this]

theorem setState_idle_step (st : State) (p : Player) (h : IdleInv p) :
    IdleInv (setState_ st p) ∧
    (setState_ st p).idleTimers.map Prod.snd = (IDLE_TIMEOUT st).toList := by
  set q := updateApplicationState_ { p with state := st } with hq
  have hmem : ∀ x ∈ q.idleTimers, q.idleTimerId = some x.1 := by
    intro x hx
    rw [hq, updateApplicationState_idleTimerId]
    refine h.2 x ?_
    rw [hq, updateApplicationState_idleTimers] at hx
    exact hx
  have hclear : (clearIdleTimer q).idleTimers = [] := clearIdleTimer_timers_nil q hmem
  have hgoal : setState_ st p = setIdleTimeout_ (IDLE_TIMEOUT st) q := rfl
  rw [hgoal]
  cases st <;>
    simp [setIdleTimeout_, IDLE_TIMEOUT, hclear, IdleInv, clearIdleTimer_idleTimerId]

/-- C2: for every completed transition and every sequence of completed
transitions, at most one idle timer is armed at any time (the invariant
`IdleInv` is preserved step by step), and after a transition the armed
timer pool consists of exactly the duration keyed by the new state in
`IDLE_TIMEOUT` — 5 min for Launching/Loading/Done/Idle, 20 min for Paused,
30 s for Stalled — and is empty (previous timer cancelled) for
Buffering/Playing. -/
theorem idle_timer_rearm_invariant :
    ∀ (p : Player) (st : State) (l : List State), IdleInv p →
      (IdleInv (setState_ st p) ∧
        (setState_ st p).idleTimers.map Prod.snd = (IDLE_TIMEOUT st).toList) ∧
      (IdleInv (runStates l p) ∧
        ∀ last : State, l.getLast? = some last →
          (runStates l p).idleTimers.map Prod.snd = (IDLE_TIMEOUT last).toList) := by
  have main : ∀ (l : List State) (p : Player), IdleInv p →
      IdleInv (runStates l p) ∧
      ∀ last : State, l.getLast? = some last →
        (runStates l p).idleTimers.map Prod.snd = (IDLE_TIMEOUT last).toList := by
    intro l
    induction l with
    | nil =>
      intro p hp
      exact ⟨hp, fun last h => by cases h⟩
    | cons a l' ih =>
      intro p hp
      have hstep := setState_idle_step a p hp
      have hrec := ih (setState_ a p) hstep.1
      cases l' with
      | nil =>
        refine ⟨hrec.1, ?_⟩
        intro last h
        simp only [List.getLast?_singleton, Option.some.injEq] at h
        subst h
        exact hstep.2
      | cons b l'' =>
        refine ⟨hrec.1, ?_⟩
        intro last h
        rw [List.getLast?_cons_cons] at h
        exact hrec.2 last h
  intro p st l hp
  exact ⟨setState_idle_step st p hp, main l p hp⟩

/-- A concrete in-flight player used by the witnesses. -/
def pW : Player :=
  { state := State.playing
    type_ := MType.video
    session := true
    sessionsCreated := 1
    nativeLoads := 0
    idleNext := 3
    idleTimers := []
    idleTimerId := some 2
    autoPlayTimerId := some 5
    playerAutoPlay := true
    mediaInfo := some (some (js "T"))
    applicationState := some (js "Now Casting: T")
    appBroadcasts := []
    statusBroadcasts := []
    errorHooks := []
    metadataErrorHooks := [] }

/-- Witness for C2: a transition to `Paused` from a concrete player arms
exactly one timer of 20 minutes, and a subsequent `Playing` leaves none. -/
theorem idle_timer_rearm_invariant_witness :
    (setState_ State.paused pW).idleTimers.map Prod.snd = [1000 * 60 * 20] ∧
    (runStates [State.paused, State.playing] pW).idleTimers.map Prod.snd = [] := by
  have h := idle_timer_rearm_invariant pW State.paused [State.paused, State.playing]
    ⟨by simp [pW], by simp [pW]⟩
  exact ⟨h.1.2, h.2.2 State.playing rfl⟩

/-! ### C8 -/

/-- C8: a progress signal delivered while the state is already Playing
leaves the player completely unchanged — same state, the idle timer is not
re-armed, and no application-state broadcast is issued, since `onProgress_`
takes its else branch; and the broadcast inside `updateApplicationState_` is
indeed suppressed whenever the computed string equals the last one
broadcast. -/
theorem progress_idempotent_when_playing :
    (∀ p : Player, p.state = State.playing → onProgress_ p = p) ∧
    (∀ p : Player,
      p.applicationState =
        some (getApplicationState_ (if p.state = State.idle then none else p.mediaInfo)) →
      updateApplicationState_ p = p) := by
  constructor
  · intro p h
    simp [onProgress_, h]
  · intro p h
    simp only [updateApplicationState_]
    rw [if_pos h]

/-- Witness for C8: the concrete playing player `pW` is returned unchanged
by a progress signal and by a suppressed application-state update. -/
theorem progress_idempotent_when_playing_witness :
    onProgress_ pW = pW ∧ updateApplicationState_ pW = pW :=
  ⟨progress_idempotent_when_playing.1 pW (by decide),
   progress_idempotent_when_playing.2 pW (by decide)⟩

/-! ### C5 -/

/-- C5: for every pause signal (`onPause_`): when the backend reports
underflow at that moment the state becomes Buffering (not Paused) and a
status broadcast excluding media details (`broadcastStatus(false)`) is
requested; otherwise, when the state is Idle or the play position strictly
equals the total duration, the state is left unchanged; otherwise the state
becomes Paused. -/
theorem pause_signal_policy :
    ∀ (p : Player) (uf : Bool) (ct dur : Option ℚ),
      ((p.session && uf) = true →
        (onPause_ uf ct dur p).state = State.buffering ∧
        (onPause_ uf ct dur p).statusBroadcasts = p.statusBroadcasts ++ [false]) ∧
      ((p.session && uf) = false →
        (p.state = State.idle ∨ jsStrictEq ct dur = true) →
        (onPause_ uf ct dur p).state = p.state) ∧
      ((p.session && uf) = false → p.state ≠ State.idle → jsStrictEq ct dur = false →
        (onPause_ uf ct dur p).state = State.paused) := by
  intro p uf ct dur
  refine ⟨?_, ?_, ?_⟩
  · intro h
    simp [onPause_, cancelPlayerAutoPlay_session, h, setState_state,
      setState_statusBroadcasts, cancelPlayerAutoPlay_statusBroadcasts]
  · intro h1 h2
    rcases h2 with h2 | h2 <;>
      simp [onPause_, cancelPlayerAutoPlay_session, cancelPlayerAutoPlay_state, h1, h2]
  · intro h1 h2 h3
    simp [onPause_, cancelPlayerAutoPlay_session, cancelPlayerAutoPlay_state, h1, h2, h3,
      setState_state]

/-- Witness for C5: a pause during underflow at the concrete player `pW`
yields Buffering plus a media-less status broadcast. -/
theorem pause_signal_policy_witness :
    (onPause_ true (some 1) (some 2) pW).state = State.buffering ∧
    (onPause_ true (some 1) (some 2) pW).statusBroadcasts = pW.statusBroadcasts ++ [false] :=
  (pause_signal_policy pW true (some 1) (some 2)).1 (by decide)

/-! ### C3 -/

/-- C3 counterexample: a media-element `error` event handled by `onError_`
at a concrete player with an attached backend session and a pending
deferred-playback timer leaves the session attached and the timer pending —
the claimed probe cancellation and session teardown do not happen on this
error source (they are not part of `onError_`). -/
theorem error_path_no_teardown_cex :
    (onError_ 7 pW).session = true ∧ (onError_ 7 pW).autoPlayTimerId = some 5 ∧
    (onError_ 7 pW).state = State.idle := by
  decide

/-- C3 (amended): every one of the three error sources transitions the
state to Idle and then invokes the corresponding original hook with the
original payload; the backend-reported fatal error path additionally
unloads and clears the `PlaybackSession` before synthesizing the
media-element error; but the media-element error and load-metadata error
handlers themselves neither cancel an outstanding auto-play probe nor tear
down the session. -/
theorem error_paths_amended :
    ∀ (err : Nat) (p : Player),
      ((onError_ err p).state = State.idle ∧
        (onError_ err p).errorHooks = p.errorHooks ++ [err] ∧
        (onError_ err p).session = p.session ∧
        (onError_ err p).autoPlayTimerId = p.autoPlayTimerId) ∧
      ((onLoadMetadataError_ err p).state = State.idle ∧
        (onLoadMetadataError_ err p).metadataErrorHooks = p.metadataErrorHooks ++ [err] ∧
        (onLoadMetadataError_ err p).session = p.session ∧
        (onLoadMetadataError_ err p).autoPlayTimerId = p.autoPlayTimerId) ∧
      (p.session = true →
        (hostOnError err p).state = State.idle ∧
        (hostOnError err p).session = false ∧
        (hostOnError err p).errorHooks = p.errorHooks ++ [err]) := by
  intro err p
  refine ⟨⟨?_, ?_, ?_, ?_⟩, ⟨?_, ?_, ?_, ?_⟩, ?_⟩
  · simp [onError_, setState_state]
  · simp [onError_, setState_errorHooks]
  · simp [onError_, setState_session]
  · simp [onError_, setState_autoPlayTimerId]
  · simp [onLoadMetadataError_, setState_state]
  · simp [onLoadMetadataError_, setState_metadataErrorHooks]
  · simp [onLoadMetadataError_, setState_session]
  · simp [onLoadMetadataError_, setState_autoPlayTimerId]
  · intro h
    simp [hostOnError, h, onError_, setState_state, setState_session, setState_errorHooks]

/-- Witness for C3 (amended): the backend-error clause applied at the
concrete player `pW`, whose session is attached. -/
theorem error_paths_amended_witness :
    (hostOnError 9 pW).state = State.idle ∧ (hostOnError 9 pW).session = false ∧
    (hostOnError 9 pW).errorHooks = pW.errorHooks ++ [9] :=
  (error_paths_amended 9 pW).2.2 (by decide)

/-! ### C6 -/

/-- C6: a load whose descriptor has an empty `contentId` or whose media
classification is `UNKNOWN` transitions the player to Idle through the
metadata-error path (the original hook receives the `LoadInfo`), and never
creates a `PlaybackSession`: no backend is attached (neither an MPL player
nor a native forward), the existing session is not unloaded, and the player
type is not reset for the new content. -/
theorem load_validation_failure :
    ∀ (info : LoadInfo) (p : Player),
      (info.contentId = [] ∨ getType_ info.contentType info.path = MType.unknown) →
      (load info p).state = State.idle ∧
      (load info p).sessionsCreated = p.sessionsCreated ∧
      (load info p).nativeLoads = p.nativeLoads ∧
      (load info p).session = p.session ∧
      (load info p).type_ = p.type_ ∧
      (load info p).metadataErrorHooks = p.metadataErrorHooks ++ [info.payload] := by
  intro info p h
  by_cases hc : info.contentId = []
  · simp [load, hc, onLoadMetadataError_, setState_state, setState_session,
      setState_sessionsCreated, setState_nativeLoads, setState_type,
      setState_metadataErrorHooks, clearIdleTimer_state, clearIdleTimer_session,
      clearIdleTimer_sessionsCreated, clearIdleTimer_nativeLoads, clearIdleTimer_type,
      clearIdleTimer_metadataErrorHooks]
  · have hu : getType_ info.contentType info.path = MType.unknown := h.resolve_left hc
    simp [load, hc, hu, onLoadMetadataError_, setState_state, setState_session,
      setState_sessionsCreated, setState_nativeLoads, setState_type,
      setState_metadataErrorHooks, clearIdleTimer_state, clearIdleTimer_session,
      clearIdleTimer_sessionsCreated, clearIdleTimer_nativeLoads, clearIdleTimer_type,
      clearIdleTimer_metadataErrorHooks]

/-- A load request with an unrecognized media classification. -/
def infoBad : LoadInfo :=
  { contentId := js "http://h/x.xyz"
    contentType := js "text/plain"
    path := js "/x.xyz"
    autoplay := none
    payload := 4 }

/-- Witness for C6: the unrecognized-content load applied at the concrete
player `pW`. -/
theorem load_validation_failure_witness :
    (load infoBad pW).state = State.idle ∧
    (load infoBad pW).sessionsCreated = pW.sessionsCreated ∧
    (load infoBad pW).nativeLoads = pW.nativeLoads ∧
    (load infoBad pW).session = pW.session ∧
    (load infoBad pW).type_ = pW.type_ ∧
    (load infoBad pW).metadataErrorHooks = pW.metadataErrorHooks ++ [infoBad.payload] :=
  load_validation_failure infoBad pW (Or.inr (by decide))

/-! ### C4 -/

theorem doPlayerAutoPlay_first_reach :
    ∀ (leads : List ℚ) (k : Nat), doPlayerAutoPlay_ leads = some k →
      (∃ v, leads[k]? = some v ∧ INITIAL_PUMP_DURATION ≤ v) ∧
      ∀ j w, j < k → leads[j]? = some w → w < INITIAL_PUMP_DURATION := by
  intro leads
  induction leads with
  | nil => intro k h; cases h
  | cons lead rest ih =>
    intro k h
    simp only [doPlayerAutoPlay_] at h
    split_ifs at h with hle
    · simp only [Option.some.injEq] at h
      subst h
      exact ⟨⟨lead, by simp, hle⟩, fun j w hj => absurd hj (Nat.not_lt_zero j)⟩
    · obtain ⟨k', hk', rfl⟩ := Option.map_eq_some'.mp h
      obtain ⟨⟨v, hv, hvle⟩, hmin⟩ := ih k' hk'
      refine ⟨⟨v, ?_, hvle⟩, ?_⟩
      · simpa using hv
      · intro j w hj hw
        cases j with
        | zero =>
          simp only [List.getElem?_cons_zero, Option.some.injEq] at hw
          subst hw
          exact lt_of_not_le hle
        | succ j' =>
          simp only [List.getElem?_cons_succ] at hw
          exact hmin j' w (Nat.lt_of_succ_lt_succ hj) hw

/-- C4: after a load that attaches a non-native backend (`hasPlayer`) with
autoplay explicitly true or unspecified (which defaults to true), the
autoplay block of `onLoadSuccess_` defers playback by the fixed 2000 ms
display delay; then, when the total duration is known (not NaN) and exceeds
the 5.0 s pump threshold, the buffered lead is polled every 200 ms and
playback starts at the first poll whose lead reaches the threshold (at time
2000 + 200·k for the minimal such poll index k); otherwise — short or
unknown duration — playback starts immediately when the delay elapses, with
no polling; with no backend attached the block does nothing. -/
theorem autoplay_gating_policy :
    ∀ (ap : Option Bool) (d : ℚ) (leads : List ℚ) (k : Nat),
      (ap = none ∨ ap = some true) →
      (INITIAL_PUMP_DURATION < d → doPlayerAutoPlay_ leads = some k →
        onLoadSuccess_ true (playerAutoPlayOf ap) (some d) leads =
          some (MEDIA_INFO_DURATION + PUMP_POLLING_INTERVAL * k) ∧
        (∃ v, leads[k]? = some v ∧ INITIAL_PUMP_DURATION ≤ v) ∧
        (∀ j w, j < k → leads[j]? = some w → w < INITIAL_PUMP_DURATION)) ∧
      (INITIAL_PUMP_DURATION < d → doPlayerAutoPlay_ leads = none →
        onLoadSuccess_ true (playerAutoPlayOf ap) (some d) leads = none) ∧
      (¬ INITIAL_PUMP_DURATION < d →
        onLoadSuccess_ true (playerAutoPlayOf ap) (some d) leads = some MEDIA_INFO_DURATION) ∧
      onLoadSuccess_ true (playerAutoPlayOf ap) none leads = some MEDIA_INFO_DURATION ∧
      onLoadSuccess_ false (playerAutoPlayOf ap) (some d) leads = none := by
  intro ap d leads k hap
  have hauto : playerAutoPlayOf ap = true := by
    rcases hap with rfl | rfl <;> rfl
  refine ⟨?_, ?_, ?_, ?_, ?_⟩
  · intro hd hk
    refine ⟨?_, doPlayerAutoPlay_first_reach leads k hk⟩
    simp [onLoadSuccess_, hauto, hd, hk]
  · intro hd hk
    simp [onLoadSuccess_, hauto, hd, hk]
  · intro hd
    simp [onLoadSuccess_, hauto, hd]
  · simp [onLoadSuccess_, hauto]
  · simp [onLoadSuccess_]

/-- Witness for C4, on the specification's own example: duration 60 s with
buffered leads 0 s, 2 s, 5 s starts playback at the third poll
(2000 + 200·2 = 2400 ms), and duration 3 s (below the threshold) starts
immediately at 2000 ms with no polling. -/
theorem autoplay_gating_policy_witness :
    onLoadSuccess_ true (playerAutoPlayOf none) (some 60) [0, 2, 5] = some 2400 ∧
    onLoadSuccess_ true (playerAutoPlayOf none) (some 3) [0, 2, 5] = some 2000 := by
  constructor
  · have h := (autoplay_gating_policy none 60 [0, 2, 5] 2 (Or.inl rfl)).1
      (by decide) (by decide)
    exact h.1.trans (by decide)
  · have h := (autoplay_gating_policy none 3 [0, 2, 5] 0 (Or.inl rfl)).2.2.1 (by decide)
    exact h.trans (by decide)

/-! ### C9 -/

/-- The four streaming MIME signatures shared by `getType_` (prefix match)
and the `loadVideo_` selection (exact match). -/
def streamingMimes : List JStr :=
  [js "application/x-mpegurl", js "application/vnd.apple.mpegurl",
   js "application/dash+xml", js "application/vnd.ms-sstr+xml"]

theorem streamingMimes_no_proper :
    ∀ m ∈ streamingMimes, ∀ n ∈ streamingMimes, m.isPrefixOf n = true → m = n := by
  decide

theorem getType_video_of_streaming (ct path : JStr)
    (h : (js "application/x-mpegurl").isPrefixOf ct = true ∨
      (js "application/vnd.apple.mpegurl").isPrefixOf ct = true ∨
      (js "application/dash+xml").isPrefixOf ct = true ∨
      (js "application/vnd.ms-sstr+xml").isPrefixOf ct = true) :
    getType_ ct path = MType.video := by
  unfold getType_
  rcases h with h | h | h | h <;> split_ifs <;> simp_all

/-- C9: media-kind classification (`getType_`) matches content types by
prefix while protocol selection (`loadVideo_`) matches them by exact
equality, so a descriptor whose content type strictly extends one of the
streaming MIME signatures, with a URL path carrying no matching extension
(no `m3u8`/`mpd` extension and no `.ism` segment), is classified as video
by load validation, yet the Native backend is selected instead of the
streaming protocol. -/
theorem mime_prefix_exact_mismatch :
    ∀ (ct path : JStr),
      (∃ m ∈ streamingMimes, m.isPrefixOf ct = true ∧ ct ≠ m) →
      getExtension_ path ≠ js "m3u8" →
      getExtension_ path ≠ js "mpd" →
      containsSeq (js ".ism") path = false →
      getType_ ct path = MType.video ∧ selectProtocol path ct = Protocol.native := by
  intro ct path hex hx1 hx2 hism
  obtain ⟨m, hm, hpre, hne⟩ := hex
  have hneq : ∀ n ∈ streamingMimes, ct ≠ n := by
    intro n hn heq
    subst heq
    exact hne (streamingMimes_no_proper m hm _ hn hpre).symm
  have hism' : ¬ containsSeq (js ".ism") path = true := by simp [hism]
  constructor
  · apply getType_video_of_streaming ct path
    have hm' : m = js "application/x-mpegurl" ∨ m = js "application/vnd.apple.mpegurl" ∨
        m = js "application/dash+xml" ∨ m = js "application/vnd.ms-sstr+xml" := by
      simpa [streamingMimes] using hm
    rcases hm' with rfl | rfl | rfl | rfl
    · exact Or.inl hpre
    · exact Or.inr (Or.inl hpre)
    · exact Or.inr (Or.inr (Or.inl hpre))
    · exact Or.inr (Or.inr (Or.inr hpre))
  · have h1 : ct ≠ js "application/x-mpegurl" := hneq _ (by simp [streamingMimes])
    have h2 : ct ≠ js "application/vnd.apple.mpegurl" := hneq _ (by simp [streamingMimes])
    have h3 : ct ≠ js "application/dash+xml" := hneq _ (by simp [streamingMimes])
    have h4 : ct ≠ js "application/vnd.ms-sstr+xml" := hneq _ (by simp [streamingMimes])
    simp only [selectProtocol]
    rw [if_neg (by rintro (h | h | h); exacts [hx1 h, h1 h, h2 h]),
      if_neg (by rintro (h | h); exacts [hx2 h, h3 h]),
      if_neg (by rintro (h | h); exacts [hism' h, h4 h])]

/-- Witness for C9: `application/x-mpegurl;charset=UTF-8` with an
extension-less path is classified video but gets the Native backend. -/
theorem mime_prefix_exact_mismatch_witness :
    getType_ (js "application/x-mpegurl;charset=UTF-8") (js "/live/stream") = MType.video ∧
    selectProtocol (js "/live/stream") (js "application/x-mpegurl;charset=UTF-8") =
      Protocol.native :=
  mime_prefix_exact_mismatch (js "application/x-mpegurl;charset=UTF-8") (js "/live/stream")
    ⟨js "application/x-mpegurl", by decide, by decide, by decide⟩
    (by decide) (by decide) (by decide)

/-! ### C7 -/

/-- C7: the display-delay timer armed by `onLoadSuccess_` is not remembered
in `playerAutoPlayTimerId_` (its `setTimeout` id is discarded), so a
cancellation issued while it is pending is a no-op and the probe still
fires and starts playback.  Concretely: after `apOnLoadSuccess` a probe
timer is pending with no tracked id, `apCancel` leaves the subsystem
unchanged, and firing the pending timer with a buffered lead of 6 s (above
the 5 s threshold) calls `play()` — contradicting the claimed guarantee
that cancellation after probe initiation always prevents the cancelled
probe from starting playback. -/
theorem autoplay_cancel_race_bug :
    (apOnLoadSuccess true apInit).pending ≠ [] ∧
    (apOnLoadSuccess true apInit).tracked = none ∧
    apCancel (apOnLoadSuccess true apInit) = apOnLoadSuccess true apInit ∧
    (apFire 0 6 (apCancel (apOnLoadSuccess true apInit))).played = true := by
  decide

end sampleplayer
